import Mathlib

/-!
# Verification of the result-handling and value-model layer

This development embeds, in Lean, the result-extraction protocol of
`lib/src/api/opt/query.rs` (the `IntoQuery` and `QueryResult` trait
implementations), together with the value model, merge engine and geometry
coercion described by the specification (whose implementations live outside
the excerpt and are modelled from the spec where noted).

Conventions of the embedding:
* Rust `Value` becomes the nested inductive `Value`; numbers are modelled as
  rationals, standing for the normalized integer/float/decimal comparison.
* The response map `IndexMap<usize, (Stats, Result<Value>)>` becomes an
  association list `ResponseMap`; in-place mutation becomes explicit state
  passing, each `query_result` implementation returning the extraction
  result together with the map left behind.
* The generic serde decoding `from_value::<T>` is modelled by an explicit
  decoding function passed as a parameter.
-/

set_option autoImplicit false

/-- Geometry values: the sum type of `surrealdb_sql::Geometry`.  Coordinates
are (longitude, latitude) pairs, modelled as rationals. -/
inductive Geometry : Type where
  | point : Rat × Rat → Geometry
  | line : List (Rat × Rat) → Geometry
  | polygon : List (List (Rat × Rat)) → Geometry
  | multipoint : List (Rat × Rat) → Geometry
  | multiline : List (List (Rat × Rat)) → Geometry
  | multipolygon : List (List (List (Rat × Rat))) → Geometry
  | collection : List Geometry → Geometry

/-- The tagged value union of `surrealdb_sql::Value` (the constructors the
claims exercise; further scalar kinds are represented alike). -/
inductive Value : Type where
  | none : Value
  | null : Value
  | bool : Bool → Value
  | number : Rat → Value
  | str : String → Value
  | duration : Nat → Value
  | datetime : Nat → Value
  | recordId : String → String → Value
  | array : List Value → Value
  | object : List (String × Value) → Value
  | geometry : Geometry → Value

/-- Execution statistics attached to every response slot
(`crate::method::Stats`). -/
structure Stats : Type where
  execution_time : Option Nat
deriving DecidableEq

/-- The API error type (`crate::api::err::Error` together with the
`surrealdb_sql` errors that convert into it): the variants the extraction
code manipulates, plus `db` for an execution failure carried by a slot and
`fromValue` for a serde decoding failure. -/
inductive ApiError : Type where
  | connectionUninitialised : ApiError
  | db : String → ApiError
  | fromValue : String → ApiError
  | lossyTake : List (Nat × Stats × Except ApiError Value) → ApiError

/-- One slot of the response map: statistics paired with the statement's
outcome. -/
abbrev Slot : Type := Stats × Except ApiError Value

/-- The inner map of `Response(pub IndexMap<usize, (Stats, Result<Value>)>)`,
as an association list from statement index to slot. -/
abbrev ResponseMap : Type := List (Nat × Slot)

/-- The `map.get(&i)` lookup on the response map: first slot stored under index `i`. -/
def getSlot : ResponseMap → Nat → Option Slot
  | [], _ => Option.none
  | (j, s) :: rest, i => if j = i then some s else getSlot rest i

/-- The effect of `map.remove(&i)` on the response map: drop the slot stored
under index `i`. -/
def removeKey : ResponseMap → Nat → ResponseMap
  | [], _ => []
  | (j, s) :: rest, i =>
    if j = i then removeKey rest i else (j, s) :: removeKey rest i

/-- In-place overwrite of the outcome stored under index `i` (the effect of
writing through `map.get_mut(&i)`). -/
def setOutcome : ResponseMap → Nat → Except ApiError Value → ResponseMap
  | [], _, _ => []
  | (j, (st, out)) :: rest, i, o =>
    if j = i then (j, (st, o)) :: rest else (j, (st, out)) :: setOutcome rest i o

/-- The `BTreeMap::get` lookup on an object's fields: first binding of key `k`. -/
def lookupField : List (String × Value) → String → Option Value
  | [], _ => Option.none
  | (j, v) :: rest, k => if j = k then some v else lookupField rest k

/-- The effect of `BTreeMap::remove` on an object's fields: drop the binding of
key `k`. -/
def removeField : List (String × Value) → String → List (String × Value)
  | [], _ => []
  | (j, v) :: rest, k =>
    if j = k then removeField rest k else (j, v) :: removeField rest k

/-- The effect of `BTreeMap::insert` on an object's fields: overwrite the binding
of key `k`, appending a fresh binding when the key is absent. -/
def setField : List (String × Value) → String → Value → List (String × Value)
  | [], k, v => [(k, v)]
  | (j, w) :: rest, k, v =>
    if j = k then (k, v) :: rest else (j, w) :: setField rest k v

/-- Embeds `Value::is_array`. -/
def Value.isArray : Value → Bool
  | .array _ => true
  | _ => false

/-! ## Result extraction (`QueryResult` implementations)

Each Rust implementation `fn query_result(self, response: &mut QueryResponse)
-> Result<R>` becomes a function from the map to the pair (returned result,
map left behind).  The serde conversion `from_value::<T>` is a parameter
`dec` (respectively `decList` for `Vec<T>` targets). -/

/-- Embeds `impl QueryResult<Value> for usize` (query.rs:188-194): `map.remove(&self)`
returns the slot, an absent slot yields `Value::None`, a present slot yields
its outcome with `?`. -/
def takeValueIndex (i : Nat) (m : ResponseMap) : Except ApiError Value × ResponseMap :=
  match getSlot m i with
  | some (_, Except.ok v) => (Except.ok v, removeKey m i)
  | some (_, Except.error e) => (Except.error e, removeKey m i)
  | Option.none => (Except.ok Value.none, m)

/-- Embeds `impl QueryResult<Option<T>> for usize` (query.rs:201-240).  On a failed
slot the stored error is `mem::replace`d by `Error::ConnectionUninitialised`
and the slot is then removed; on an array of two or more elements the whole
map is `mem::take`n into `Error::LossyTake`, leaving the empty map behind. -/
def takeOptionIndex {α : Type} (dec : Value → Except ApiError (Option α))
    (i : Nat) (m : ResponseMap) : Except ApiError (Option α) × ResponseMap :=
  match getSlot m i with
  | Option.none => (Except.ok Option.none, m)
  | some (_, Except.error e) =>
    (Except.error e, removeKey (setOutcome m i (Except.error ApiError.connectionUninitialised)) i)
  | some (_, Except.ok v) =>
    match v with
    | Value.array [] => (Except.ok Option.none, removeKey m i)
    | Value.array [x] => (dec x, removeKey m i)
    | Value.array _ => (Except.error (ApiError.lossyTake m), ([] : ResponseMap))
    | _ => (dec v, removeKey m i)

/-- Embeds `impl QueryResult<Value> for (usize, &str)` (query.rs:242-270): the slot
is kept; when it holds an object the field is removed from it in place and
returned (`unwrap_or_default()` yields `Value::None`); any other shape
yields `Value::None` without touching the slot. -/
def takeValueKey (i : Nat) (key : String) (m : ResponseMap) :
    Except ApiError Value × ResponseMap :=
  match getSlot m i with
  | Option.none => (Except.ok Value.none, m)
  | some (_, Except.error e) =>
    (Except.error e, removeKey (setOutcome m i (Except.error ApiError.connectionUninitialised)) i)
  | some (_, Except.ok v) =>
    match v with
    | Value.object fields =>
      ((Except.ok ((lookupField fields key).getD Value.none)),
        setOutcome m i (Except.ok (Value.object (removeField fields key))))
    | _ => (Except.ok Value.none, m)

/-- Writes the resolved single value back into slot `i`, restoring the
one-element-array wrapper when the value was resolved out of one (the Rust
code mutates through a `&mut` pointing either at the slot's value or at the
single array element). -/
def writeResolved (i : Nat) (m : ResponseMap) (wrapped : Bool) (v : Value) : ResponseMap :=
  setOutcome m i (Except.ok (if wrapped then Value.array [v] else v))

/-- The second half of `impl QueryResult<Option<T>> for (usize, &str)`
(query.rs:304-320), acting on the resolved single value `v` (`wrapped` is
true when `v` was the single element of an array in the slot). -/
def takeOptionKeyResolved {α : Type} (dec : Value → Except ApiError (Option α))
    (i : Nat) (key : String) (m : ResponseMap) (wrapped : Bool) (v : Value) :
    Except ApiError (Option α) × ResponseMap :=
  match v with
  | Value.none => (Except.ok Option.none, removeKey m i)
  | Value.null => (Except.ok Option.none, removeKey m i)
  | Value.object fields =>
    if fields.isEmpty then (Except.ok Option.none, removeKey m i)
    else
      match lookupField fields key with
      | Option.none => (Except.ok Option.none, m)
      | some fv =>
        (dec fv, writeResolved i m wrapped (Value.object (removeField fields key)))
  | _ => (Except.ok Option.none, m)

/-- Embeds `impl QueryResult<Option<T>> for (usize, &str)` (query.rs:272-326). -/
def takeOptionKey {α : Type} (dec : Value → Except ApiError (Option α))
    (i : Nat) (key : String) (m : ResponseMap) :
    Except ApiError (Option α) × ResponseMap :=
  match getSlot m i with
  | Option.none => (Except.ok Option.none, m)
  | some (_, Except.error e) =>
    (Except.error e, removeKey (setOutcome m i (Except.error ApiError.connectionUninitialised)) i)
  | some (_, Except.ok v) =>
    match v with
    | Value.array [] => (Except.ok Option.none, removeKey m i)
    | Value.array [x] => takeOptionKeyResolved dec i key m true x
    | Value.array _ => (Except.error (ApiError.lossyTake m), ([] : ResponseMap))
    | _ => takeOptionKeyResolved dec i key m false v

/-- Embeds `impl QueryResult<Vec<T>> for usize` (query.rs:328-348): the slot is
removed; an array decodes element-wise, any other value is treated as a
one-element array, an absent slot yields the empty vector. -/
def takeVecIndex {α : Type} (decList : List Value → Except ApiError (List α))
    (i : Nat) (m : ResponseMap) : Except ApiError (List α) × ResponseMap :=
  match getSlot m i with
  | Option.none => (Except.ok [], m)
  | some (_, Except.error e) => (Except.error e, removeKey m i)
  | some (_, Except.ok (Value.array xs)) => (decList xs, removeKey m i)
  | some (_, Except.ok v) => (decList [v], removeKey m i)

/-- The collection loop of `impl QueryResult<Vec<T>> for (usize, &str)`
(query.rs:375-382): visit the elements, keeping the `key` field of those
that are objects containing it. -/
def collectKey (key : String) : List Value → List Value
  | [] => []
  | Value.object fields :: rest =>
    match lookupField fields key with
    | some v => v :: collectKey key rest
    | Option.none => collectKey key rest
  | _ :: rest => collectKey key rest

/-- Embeds `impl QueryResult<Vec<T>> for (usize, &str)` (query.rs:350-389): the
slot's value is `mem::take`n (an array leaves an empty array behind, any
other value leaves `Value::None` behind; the slot entry itself stays), and
the `key` fields of the object elements are collected and decoded. -/
def takeVecKey {α : Type} (decList : List Value → Except ApiError (List α))
    (i : Nat) (key : String) (m : ResponseMap) :
    Except ApiError (List α) × ResponseMap :=
  match getSlot m i with
  | Option.none => (Except.ok [], m)
  | some (_, Except.error e) =>
    (Except.error e, removeKey (setOutcome m i (Except.error ApiError.connectionUninitialised)) i)
  | some (_, Except.ok (Value.array xs)) =>
    (decList (collectKey key xs), setOutcome m i (Except.ok (Value.array [])))
  | some (_, Except.ok v) =>
    (decList (collectKey key [v]), setOutcome m i (Except.ok Value.none))

/-- Embeds `impl QueryResult<Value> for &str` (query.rs:391-395): delegates to the
`(0, key)` selector. -/
def takeValueStr (key : String) (m : ResponseMap) : Except ApiError Value × ResponseMap :=
  takeValueKey 0 key m

/-- Embeds `impl QueryResult<Option<T>> for &str` (query.rs:397-404): delegates to
the `(0, key)` selector. -/
def takeOptionStr {α : Type} (dec : Value → Except ApiError (Option α))
    (key : String) (m : ResponseMap) : Except ApiError (Option α) × ResponseMap :=
  takeOptionKey dec 0 key m

/-- Embeds `impl QueryResult<Vec<T>> for &str` (query.rs:406-413): delegates to the
`(0, key)` selector. -/
def takeVecStr {α : Type} (decList : List Value → Except ApiError (List α))
    (key : String) (m : ResponseMap) : Except ApiError (List α) × ResponseMap :=
  takeVecKey decList 0 key m

/-- Embeds `QueryResult::stats` as overridden by every selector implementation
(query.rs:196-199 and the analogous overrides): `map.get(&i).map(|x| x.0)`. -/
def statsAt (i : Nat) (m : ResponseMap) : Option Stats :=
  (getSlot m i).map Prod.fst

/-- The trait's default `stats` body (query.rs:183-186): always reads
index 0. -/
def statsDefault (m : ResponseMap) : Option Stats :=
  (getSlot m 0).map Prod.fst

/-! ## Query construction (`IntoQuery` implementations)

The statement sum type of `surrealdb_sql::Statement`; the payload carried by
each statement kind is irrelevant to query construction and is abstracted to
a string. -/

/-- One statement kind of the `Statement` sum type. -/
inductive StatementKind : Type where
  | use | set | info | live | kill | begin | cancel | commit | output
  | ifelse | select | create | update | relate | delete | insert
  | define | remove | option
deriving DecidableEq

/-- A parsed statement: its kind together with its (abstracted) payload. -/
structure Statement : Type where
  kind : StatementKind
  payload : String
deriving DecidableEq

/-- Embeds `surrealdb_sql::Statements`, the newtype around `Vec<Statement>`. -/
structure Statements : Type where
  statements : List Statement
deriving DecidableEq

/-- Embeds `surrealdb_sql::Query`, the newtype around `Statements`. -/
structure Query : Type where
  inner : Statements
deriving DecidableEq

/-- Embeds `impl IntoQuery for Query` (query.rs:16-21). -/
def Query.into_query (q : Query) : Except ApiError (List Statement) :=
  Except.ok q.inner.statements

/-- Embeds `impl IntoQuery for Statements` (query.rs:23-28). -/
def Statements.into_query (s : Statements) : Except ApiError (List Statement) :=
  Except.ok s.statements

/-- Embeds `impl IntoQuery for Vec<Statement>` (query.rs:30-34). -/
def listIntoQuery (ss : List Statement) : Except ApiError (List Statement) :=
  Except.ok ss

/-- Embeds `impl IntoQuery for Statement` (query.rs:36-40). -/
def Statement.into_query (s : Statement) : Except ApiError (List Statement) :=
  Except.ok [s]

/-! ## Merge engine

The merge implementation itself is not part of the excerpt (only its test,
`lib/tests/merge.rs`, is), so it is modelled from the specification. -/

mutual

/-- Modelled from the spec: the merge contract of §4.2, whose implementation
(the engine-side object-patch application exercised by
`lib/tests/merge.rs`) is not under `src/`.  Applies one patch field to the
target: a `None` patch value is the deletion sentinel and removes the key
(no error if absent); when both sides hold objects they merge recursively;
any other patch value overwrites verbatim.  `mergeObj` folds `mergeOne` over
the patch's fields in order; keys present only in the target are untouched.
Record-identifier protection is enforced at the record layer above this
object-level function. -/
def mergeOne (target : List (String × Value)) (k : String) :
    Value → List (String × Value)
  | Value.none => removeField target k
  | Value.object pf =>
    (match lookupField target k with
     | some (Value.object tf) => setField target k (Value.object (mergeObj tf pf))
     | _ => setField target k (Value.object pf))
  | pv => setField target k pv

/-- Modelled from the spec: see `mergeOne`. -/
def mergeObj : List (String × Value) → List (String × Value) → List (String × Value)
  | target, [] => target
  | target, (k, pv) :: rest => mergeObj (mergeOne target k pv) rest

end

example : mergeObj
    [("a", Value.number 0), ("b", Value.number 2), ("c", Value.number 3)]
    [("a", Value.number 1), ("b", Value.none)]
    = [("a", Value.number 1), ("c", Value.number 3)] := by
  simp [mergeObj, mergeOne, setField, removeField, lookupField]

/-! ## Basic lemmas about the response map operations -/

@[simp]
theorem getSlot_removeKey_self (m : ResponseMap) (i : Nat) :
    getSlot (removeKey m i) i = Option.none := by
  induction m with
  | nil => rfl
  | cons p rest ih =>
    obtain ⟨j, s⟩ := p
    by_cases hj : j = i
    · simpa [removeKey, hj] using ih
    · simpa [removeKey, getSlot, hj] using ih

theorem removeKey_setOutcome_self (m : ResponseMap) (i : Nat) (o : Except ApiError Value) :
    removeKey (setOutcome m i o) i = removeKey m i := by
  induction m with
  | nil => rfl
  | cons p rest ih =>
    obtain ⟨j, st, out⟩ := p
    by_cases hj : j = i
    · simp [setOutcome, removeKey, hj]
    · simp [setOutcome, removeKey, hj, ih]

/-- A concrete decoder for `Option<T>` targets, used by the closed
witnesses: the identity deserialization into a value. -/
def decIdOpt : Value → Except ApiError (Option Value) :=
  fun v => Except.ok (some v)

/-- A concrete decoder for `Vec<T>` targets, used by the closed witnesses:
the identity deserialization of the element list. -/
def decIdList : List Value → Except ApiError (List Value) :=
  fun xs => Except.ok xs

/-! ## C1 — failure observation on extraction at a failed index -/

/-- C1 (amended): for every response map and index whose slot holds a
failure, the first extraction at that index (optional-scalar or exact)
returns the original failure and removes the slot (the placeholder written
into the slot by the code is discarded together with the slot), so a second
extraction attempt at the same index sees an absent slot and yields the
empty/none result — never the original error again. -/
theorem extraction_consumes_failure_exactly_once {α : Type}
    (dec : Value → Except ApiError (Option α)) (i : Nat) (m : ResponseMap)
    (st : Stats) (e : ApiError)
    (h : getSlot m i = some (st, Except.error e)) :
    takeOptionIndex dec i m = (Except.error e, removeKey m i)
    ∧ takeValueIndex i m = (Except.error e, removeKey m i)
    ∧ getSlot (removeKey m i) i = Option.none
    ∧ (takeOptionIndex dec i (removeKey m i)).1 = Except.ok Option.none
    ∧ (takeValueIndex i (removeKey m i)).1 = Except.ok Value.none := by
  refine ⟨?_, ?_, getSlot_removeKey_self m i, ?_, ?_⟩
  · simp [takeOptionIndex, h, removeKey_setOutcome_self]
  · simp [takeValueIndex, h]
  · simp [takeOptionIndex, getSlot_removeKey_self]
  · simp [takeValueIndex, getSlot_removeKey_self]

/-- The map used by the C1 counterexample and witness: a single slot at
index 0 holding a failed outcome. -/
def mapC1 : ResponseMap := [(0, ⟨some 7⟩, Except.error (ApiError.db "E"))]

/-- C1 (counterexample to the claim as stated): on `{0: (stats, Err(E))}`
the first optional-scalar extraction at index 0 returns `E`, but the second
extraction at index 0 yields `Ok(None)` — an absent-slot result, not the
"already consumed" placeholder error the claim promises (nor any error at
all). -/
theorem second_extraction_sees_no_placeholder :
    (takeOptionIndex decIdOpt 0 mapC1).1 = Except.error (ApiError.db "E")
    ∧ (takeOptionIndex decIdOpt 0 (takeOptionIndex decIdOpt 0 mapC1).2).1
        = Except.ok Option.none
    ∧ (takeOptionIndex decIdOpt 0 (takeOptionIndex decIdOpt 0 mapC1).2).1
        ≠ Except.error ApiError.connectionUninitialised := by
  refine ⟨rfl, rfl, ?_⟩
  simp [mapC1, takeOptionIndex, getSlot, removeKey, setOutcome, decIdOpt]

/-- C1 witness: the amended statement at the concrete input `mapC1`. -/
theorem extraction_consumes_failure_exactly_once_witness :
    getSlot mapC1 0 = some (⟨some 7⟩, Except.error (ApiError.db "E"))
    ∧ takeOptionIndex decIdOpt 0 mapC1
        = (Except.error (ApiError.db "E"), removeKey mapC1 0) :=
  ⟨rfl, (extraction_consumes_failure_exactly_once decIdOpt 0 mapC1 ⟨some 7⟩
      (ApiError.db "E") rfl).1⟩

/-! ## C2 — exact untyped extraction by bare index -/

/-- C2 (amended): exact untyped extraction by bare index returns the "none"
value when the slot is absent, and when the slot is present and ok it
returns the stored value as-is — but the extraction is destructive: the slot
is removed from the map. -/
theorem exact_index_extraction_removes_slot (i : Nat) (m : ResponseMap)
    (st : Stats) (v : Value) :
    (getSlot m i = Option.none → takeValueIndex i m = (Except.ok Value.none, m))
    ∧ (getSlot m i = some (st, Except.ok v) →
        takeValueIndex i m = (Except.ok v, removeKey m i)
        ∧ getSlot (removeKey m i) i = Option.none) := by
  constructor
  · intro h
    simp [takeValueIndex, h]
  · intro h
    exact ⟨by simp [takeValueIndex, h], getSlot_removeKey_self m i⟩

/-- The map used by the C2 counterexample and witness: a single ok slot at
index 0. -/
def mapC2 : ResponseMap := [(0, ⟨some 7⟩, Except.ok (Value.bool true))]

/-- C2 (counterexample to the claim as stated): exact untyped extraction at
a present, ok index returns the stored value but removes the slot — the map
left behind no longer contains the slot, refuting the claimed
non-destructiveness. -/
theorem exact_index_extraction_is_destructive :
    (takeValueIndex 0 mapC2).1 = Except.ok (Value.bool true)
    ∧ getSlot mapC2 0 = some (⟨some 7⟩, Except.ok (Value.bool true))
    ∧ getSlot ((takeValueIndex 0 mapC2).2) 0 = Option.none
    ∧ (takeValueIndex 0 mapC2).2 ≠ mapC2 := by
  refine ⟨rfl, rfl, rfl, ?_⟩
  simp [mapC2, takeValueIndex, getSlot, removeKey]

/-- C2 witness: the amended statement at concrete inputs — an absent index
on the empty map, and the present ok slot of `mapC2`. -/
theorem exact_index_extraction_removes_slot_witness :
    takeValueIndex 3 [] = (Except.ok Value.none, [])
    ∧ takeValueIndex 0 mapC2 = (Except.ok (Value.bool true), removeKey mapC2 0) :=
  ⟨(exact_index_extraction_removes_slot 3 [] ⟨some 7⟩ Value.none).1 rfl,
   ((exact_index_extraction_removes_slot 0 mapC2 ⟨some 7⟩ (Value.bool true)).2 rfl).1⟩

/-! ## C3 — anti-data-loss on ambiguous take -/

/-- C3 (confirmed): when the slot at index `i` is ok and holds an array of
at least two elements, optional-scalar extraction at `i` (by bare index or
by `(index, key)`) fails with the ambiguous-result error carrying the entire
remaining response map re-attached — and exact extraction of any other
present ok index from the re-attached map still succeeds with its original
value, so no other statement result is lost. -/
theorem ambiguous_take_preserves_other_results {α : Type}
    (dec : Value → Except ApiError (Option α)) (i : Nat) (key : String)
    (m : ResponseMap) (st : Stats) (a b : Value) (rest : List Value)
    (h : getSlot m i = some (st, Except.ok (Value.array (a :: b :: rest)))) :
    takeOptionIndex dec i m = (Except.error (ApiError.lossyTake m), [])
    ∧ takeOptionKey dec i key m = (Except.error (ApiError.lossyTake m), [])
    ∧ (∀ (j : Nat) (st' : Stats) (v' : Value), getSlot m j = some (st', Except.ok v') →
        (takeValueIndex j m).1 = Except.ok v') := by
  refine ⟨?_, ?_, ?_⟩
  · simp [takeOptionIndex, h]
  · simp [takeOptionKey, h]
  · intro j st' v' hj
    simp [takeValueIndex, hj]

/-- The map used by the C3 witness: index 0 holds a two-element array,
index 1 holds an untouched ok value. -/
def mapC3 : ResponseMap :=
  [(0, ⟨some 7⟩, Except.ok (Value.array [Value.number 1, Value.number 2])),
   (1, ⟨some 8⟩, Except.ok (Value.str "other"))]

/-- C3 witness: the confirmed statement at the concrete input `mapC3` — the
ambiguous failure re-attaches the whole map, from which index 1 still
extracts its original value. -/
theorem ambiguous_take_preserves_other_results_witness :
    takeOptionIndex decIdOpt 0 mapC3 = (Except.error (ApiError.lossyTake mapC3), [])
    ∧ (takeValueIndex 1 mapC3).1 = Except.ok (Value.str "other") :=
  ⟨(ambiguous_take_preserves_other_results decIdOpt 0 "k" mapC3 ⟨some 7⟩
      (Value.number 1) (Value.number 2) [] rfl).1,
   (ambiguous_take_preserves_other_results decIdOpt 0 "k" mapC3 ⟨some 7⟩
      (Value.number 1) (Value.number 2) [] rfl).2.2 1 ⟨some 8⟩ (Value.str "other") rfl⟩

/-! ## C4 — keyed optional extraction -/

theorem lookupField_ne_nil {fields : List (String × Value)} {key : String} {fv : Value}
    (h : lookupField fields key = some fv) : fields ≠ [] := by
  intro hnil
  subst hnil
  simp [lookupField] at h

/-- Lemma: `takeOptionKey` dispatches to `takeOptionKeyResolved` on the resolved
single value (either the slot's value itself, or the single element of the
array it holds). -/
theorem takeOptionKey_resolves {α : Type} (dec : Value → Except ApiError (Option α))
    (i : Nat) (key : String) (m : ResponseMap) (st : Stats) (v w : Value)
    (hslot : getSlot m i = some (st, Except.ok v))
    (hres : v = Value.array [w] ∨ (v = w ∧ w.isArray = false)) :
    takeOptionKey dec i key m = takeOptionKeyResolved dec i key m v.isArray w := by
  rcases hres with hv | ⟨hv, hw⟩
  · subst hv
    simp [takeOptionKey, hslot, Value.isArray]
  · subst hv
    cases v <;> simp_all [takeOptionKey, Value.isArray]

/-- C4 (confirmed): keyed optional extraction `(index, key)` decoded to `T`:
when the slot resolves (directly, or through a one-element array) to `None`
or `Null`, extraction returns no value without error and removes the slot;
when it resolves to a non-empty object lacking the key, extraction returns
no value without error and without consuming the slot; when it resolves to
an object containing the key, that field is removed from the object — the
rest of the object stays in the slot (re-wrapped in its one-element array
when it was resolved out of one) — and the field's value is decoded. -/
theorem keyed_optional_extraction_contract {α : Type}
    (dec : Value → Except ApiError (Option α)) (i : Nat) (key : String)
    (m : ResponseMap) (st : Stats) (v w : Value)
    (hslot : getSlot m i = some (st, Except.ok v))
    (hres : v = Value.array [w] ∨ (v = w ∧ w.isArray = false)) :
    ((w = Value.none ∨ w = Value.null) →
      takeOptionKey dec i key m = (Except.ok Option.none, removeKey m i))
    ∧ (∀ fields, w = Value.object fields → fields ≠ [] →
        lookupField fields key = Option.none →
        takeOptionKey dec i key m = (Except.ok Option.none, m))
    ∧ (∀ fields fv, w = Value.object fields → lookupField fields key = some fv →
        takeOptionKey dec i key m
          = (dec fv, writeResolved i m v.isArray (Value.object (removeField fields key)))) := by
  have hd := takeOptionKey_resolves dec i key m st v w hslot hres
  refine ⟨?_, ?_, ?_⟩
  · rintro (rfl | rfl) <;> simp [hd, takeOptionKeyResolved]
  · rintro fields rfl hne hkey
    cases fields with
    | nil => exact absurd rfl hne
    | cons f fr => simp [hd, takeOptionKeyResolved, hkey]
  · rintro fields fv rfl hkey
    cases fields with
    | nil => exact absurd rfl (lookupField_ne_nil hkey)
    | cons f fr => simp [hd, takeOptionKeyResolved, hkey]

/-- A map whose slot 0 resolves (through a one-element array) to an object
containing the field "v", used by the C4 witness. -/
def mapC4 : ResponseMap :=
  [(0, ⟨some 7⟩, Except.ok (Value.array [Value.object [("v", Value.number 5)]]))]

/-- A map whose slot 0 holds `Null`, used by the C4 witness. -/
def mapC4null : ResponseMap := [(0, ⟨some 7⟩, Except.ok Value.null)]

/-- C4 witness: the contract at concrete inputs — a `Null` slot is removed
with no value returned, and a keyed extraction from a one-element array of
one object removes the field, leaves the emptied object re-wrapped in the
slot, and decodes the field's value. -/
theorem keyed_optional_extraction_contract_witness :
    takeOptionKey decIdOpt 0 "v" mapC4null = (Except.ok Option.none, removeKey mapC4null 0)
    ∧ takeOptionKey decIdOpt 0 "v" mapC4
        = (decIdOpt (Value.number 5), writeResolved 0 mapC4 true (Value.object [])) :=
  ⟨(keyed_optional_extraction_contract decIdOpt 0 "v" mapC4null ⟨some 7⟩
      Value.null Value.null rfl (Or.inr ⟨rfl, rfl⟩)).1 (Or.inr rfl),
   (keyed_optional_extraction_contract decIdOpt 0 "v" mapC4 ⟨some 7⟩
      (Value.array [Value.object [("v", Value.number 5)]])
      (Value.object [("v", Value.number 5)]) rfl (Or.inl rfl)).2.2
      [("v", Value.number 5)] (Value.number 5) rfl rfl⟩

/-! ## C5 — collection extraction by (index, key) -/

theorem getSlot_setOutcome_self (m : ResponseMap) (i : Nat) (st : Stats)
    (out o : Except ApiError Value) (h : getSlot m i = some (st, out)) :
    getSlot (setOutcome m i o) i = some (st, o) := by
  induction m with
  | nil => simp [getSlot] at h
  | cons p rest ih =>
    obtain ⟨j, st', out'⟩ := p
    by_cases hj : j = i
    · subst hj
      simp [getSlot] at h
      simp [setOutcome, getSlot, h.1]
    · simp [getSlot, hj] at h
      simp [setOutcome, getSlot, hj, ih h]

/-- The collection loop keeps exactly the `key` fields of the object
elements, in order. -/
theorem collectKey_eq_filterMap (key : String) (xs : List Value) :
    collectKey key xs
      = xs.filterMap (fun v => match v with
          | Value.object fs => lookupField fs key
          | _ => Option.none) := by
  induction xs with
  | nil => rfl
  | cons x rest ih =>
    cases x <;> simp [collectKey, List.filterMap_cons, ih]
    case object fs => cases h : lookupField fs key <;> simp [h]

/-- C5 (amended): collection extraction `Vec<T>` by `(index, key)` on an ok
slot: when the slot holds an array, exactly the elements that are objects
containing the key contribute that field's value, in order, non-matching
elements silently skipped; a non-array value is treated as a one-element
array, so a non-array object containing the key yields that field as a
singleton and any other non-array value yields the empty collection; the
slot entry is not removed — its value is emptied in place (an array slot is
left holding the empty array, a non-array slot is left holding the none
value). -/
theorem keyed_vec_extraction_contract {α : Type}
    (decList : List Value → Except ApiError (List α)) (i : Nat) (key : String)
    (m : ResponseMap) (st : Stats) :
    (∀ xs, getSlot m i = some (st, Except.ok (Value.array xs)) →
      takeVecKey decList i key m
        = (decList (xs.filterMap (fun v => match v with
              | Value.object fs => lookupField fs key
              | _ => Option.none)),
           setOutcome m i (Except.ok (Value.array [])))
      ∧ getSlot (setOutcome m i (Except.ok (Value.array []))) i
          = some (st, Except.ok (Value.array [])))
    ∧ (∀ fs fv, getSlot m i = some (st, Except.ok (Value.object fs)) →
        lookupField fs key = some fv →
        takeVecKey decList i key m = (decList [fv], setOutcome m i (Except.ok Value.none)))
    ∧ (∀ v, getSlot m i = some (st, Except.ok v) → v.isArray = false →
        (∀ fs, v = Value.object fs → lookupField fs key = Option.none) →
        takeVecKey decList i key m = (decList [], setOutcome m i (Except.ok Value.none))) := by
  refine ⟨?_, ?_, ?_⟩
  · intro xs h
    exact ⟨by simp [takeVecKey, h, collectKey_eq_filterMap],
      getSlot_setOutcome_self m i st _ _ h⟩
  · intro fs fv h hkey
    simp [takeVecKey, h, collectKey, hkey]
  · intro v h hv hobj
    cases v <;> simp_all [takeVecKey, collectKey, Value.isArray]

/-- The map used by the C5 counterexample and witness: slot 0 holds a bare
(non-array) object containing the field "k". -/
def mapC5 : ResponseMap := [(0, ⟨some 7⟩, Except.ok (Value.object [("k", Value.number 5)]))]

/-- C5 (counterexample to the claim as stated): on a slot holding a bare
object with the requested field, keyed collection extraction yields that
field as a one-element collection — not the empty collection the claim
promises for a non-array resolved value — and the slot entry is still
present afterwards (holding the none value), not consumed. -/
theorem keyed_vec_nonarray_not_empty :
    takeVecKey decIdList 0 "k" mapC5
      = (Except.ok [Value.number 5], [(0, ⟨some 7⟩, Except.ok Value.none)])
    ∧ (Except.ok [Value.number 5] : Except ApiError (List Value)) ≠ Except.ok []
    ∧ getSlot [(0, (⟨some 7⟩ : Stats), Except.ok Value.none)] 0 ≠ Option.none := by
  refine ⟨rfl, ?_, ?_⟩
  · simp
  · simp [getSlot]

/-- The map used by the C5 witness's array case: slot 0 holds an array
mixing objects with the field, an object without it, and a scalar. -/
def mapC5arr : ResponseMap :=
  [(0, ⟨some 7⟩, Except.ok (Value.array
    [Value.object [("k", Value.number 1)],
     Value.number 9,
     Value.object [("other", Value.number 2)],
     Value.object [("k", Value.number 3)]]))]

/-- C5 witness: the amended statement at concrete inputs — the array case
collects exactly the matching fields in order and leaves the emptied array
in the slot, and the non-array object case yields a singleton. -/
theorem keyed_vec_extraction_contract_witness :
    takeVecKey decIdList 0 "k" mapC5arr
      = (Except.ok [Value.number 1, Value.number 3],
         setOutcome mapC5arr 0 (Except.ok (Value.array [])))
    ∧ takeVecKey decIdList 0 "k" mapC5
        = (decIdList [Value.number 5], setOutcome mapC5 0 (Except.ok Value.none)) :=
  ⟨((keyed_vec_extraction_contract decIdList 0 "k" mapC5arr ⟨some 7⟩).1
      [Value.object [("k", Value.number 1)], Value.number 9,
       Value.object [("other", Value.number 2)], Value.object [("k", Value.number 3)]]
      rfl).1,
   (keyed_vec_extraction_contract decIdList 0 "k" mapC5 ⟨some 7⟩).2.1
      [("k", Value.number 5)] (Value.number 5) rfl rfl⟩

/-! ## C6 — statistics lookup -/

/-- C6 (amended): statistics lookup by index is read-only — it is a pure
function of the map, never removing or altering a slot — and returns the
statistics stored in the slot while the slot is present; but it is not
unaffected by prior extraction: once a destructive extraction has consumed
the slot, the lookup at that index returns nothing.  The trait's default
`stats` body reads index 0. -/
theorem stats_lookup_contract (i : Nat) (m : ResponseMap) (st : Stats)
    (out : Except ApiError Value) :
    (getSlot m i = some (st, out) → statsAt i m = some st)
    ∧ (getSlot m i = Option.none → statsAt i m = Option.none)
    ∧ (getSlot m i = some (st, out) → statsAt i ((takeValueIndex i m).2) = Option.none)
    ∧ statsDefault m = statsAt 0 m := by
  refine ⟨?_, ?_, ?_, rfl⟩
  · intro h
    simp [statsAt, h]
  · intro h
    simp [statsAt, h]
  · intro h
    cases out <;> simp [takeValueIndex, h, statsAt, getSlot_removeKey_self]

/-- The map used by the C6 counterexample and witness: one ok slot at
index 0 with known statistics. -/
def mapC6 : ResponseMap := [(0, ⟨some 9⟩, Except.ok (Value.str "x"))]

/-- C6 (counterexample to the claim as stated): the statistics for index 0
are present before extraction, but after the exact extraction at index 0
consumes the slot the lookup returns nothing — the statistics returned are
not equal to the statistics before the extraction, refuting independence
from prior consumption. -/
theorem stats_change_after_consumption :
    statsAt 0 mapC6 = some ⟨some 9⟩
    ∧ statsAt 0 ((takeValueIndex 0 mapC6).2) = Option.none
    ∧ statsAt 0 ((takeValueIndex 0 mapC6).2) ≠ statsAt 0 mapC6 := by
  refine ⟨rfl, rfl, ?_⟩
  simp [mapC6, statsAt, takeValueIndex, getSlot, removeKey]

/-- C6 witness: the amended statement at the concrete input `mapC6`. -/
theorem stats_lookup_contract_witness :
    statsAt 0 mapC6 = some ⟨some 9⟩
    ∧ statsAt 0 ((takeValueIndex 0 mapC6).2) = Option.none :=
  ⟨(stats_lookup_contract 0 mapC6 ⟨some 9⟩ (Except.ok (Value.str "x"))).1 rfl,
   (stats_lookup_contract 0 mapC6 ⟨some 9⟩ (Except.ok (Value.str "x"))).2.2.1 rfl⟩

/-! ## C7 — query construction -/

/-- C7 (confirmed): a single statement converts to exactly the one-element
sequence containing it; a pre-parsed sequence of statements (bare, or
wrapped as `Statements` or `Query`) converts to exactly that sequence in
submission order, with no reordering, deduplication or filtering; and none
of these non-text conversions can fail. -/
theorem into_query_preserves_statements (s : Statement) (ss : List Statement) :
    Statement.into_query s = Except.ok [s]
    ∧ listIntoQuery ss = Except.ok ss
    ∧ Statements.into_query ⟨ss⟩ = Except.ok ss
    ∧ Query.into_query ⟨⟨ss⟩⟩ = Except.ok ss :=
  ⟨rfl, rfl, rfl, rfl⟩

/-! ## C9 — structural vs. nominal typing of geometry-shaped objects

The value-model predicates and the geometry cast are not part of the
excerpt (only their test, `crates/sdk/tests/geometry.rs`, is), so they are
modelled from the specification (§3 invariant, §4.1 cast, §6 serialized
form). -/

/-- Modelled from the spec: `Value::is_geometry`, the tag predicate of the
value model (not under `src/`) — true only for values actually tagged
`Geometry`, never inferred from shape. -/
def Value.is_geometry : Value → Bool
  | .geometry _ => true
  | _ => false

/-- Modelled from the spec: `Value::is_object`, the tag predicate of the
value model (not under `src/`) — true only for values tagged `Object`. -/
def Value.is_object : Value → Bool
  | .object _ => true
  | _ => false

/-- A serialized coordinate pair: a two-element array of numbers, read as
(longitude, latitude). -/
def coordOf : Value → Option (Rat × Rat)
  | Value.array [Value.number x, Value.number y] => some (x, y)
  | _ => Option.none

/-- Element-wise conversion of a serialized sequence, failing when any
element fails. -/
def mapOpt {A B : Type} (f : A → Option B) : List A → Option (List B)
  | [] => some []
  | x :: rest =>
    match f x, mapOpt f rest with
    | some y, some ys => some (y :: ys)
    | _, _ => Option.none

/-- A serialized sequence of coordinate pairs. -/
def coordsOf : Value → Option (List (Rat × Rat))
  | Value.array vs => mapOpt coordOf vs
  | _ => Option.none

/-- A serialized line: a sequence of at least two points (§3). -/
def lineOf (v : Value) : Option (List (Rat × Rat)) :=
  (coordsOf v).bind fun ps => if 2 ≤ ps.length then some ps else Option.none

/-- A serialized sequence of linear rings (stored exactly as given — no
auto-closing or winding normalization). -/
def ringsOf : Value → Option (List (List (Rat × Rat)))
  | Value.array vs => mapOpt coordsOf vs
  | _ => Option.none

/-- A serialized sequence of polygons. -/
def polysOf : Value → Option (List (List (List (Rat × Rat))))
  | Value.array vs => mapOpt ringsOf vs
  | _ => Option.none

theorem sizeOf_lookupField {fs : List (String × Value)} {k : String} {v : Value}
    (h : lookupField fs k = some v) : sizeOf v < sizeOf fs := by
  induction fs with
  | nil => simp [lookupField] at h
  | cons p rest ih =>
    obtain ⟨j, w⟩ := p
    by_cases hj : j = k
    · simp [lookupField, hj] at h
      subst h
      simp
      omega
    · simp [lookupField, hj] at h
      have := ih h
      simp
      omega

mutual

/-- Modelled from the spec: the structural validation performed by the
geometry cast and at geometry-typed call boundaries (not under `src/`) —
an object converts when its `type` field holds one of the recognized
geometry-kind strings and its `coordinates` field (for `Collection`, its
`geometries` field) matches that kind's shape (§3, §6). -/
def objToGeometry (fields : List (String × Value)) : Option Geometry :=
  match lookupField fields "type" with
  | some (Value.str t) =>
    if t = "Point" then ((lookupField fields "coordinates").bind coordOf).map Geometry.point
    else if t = "Line" then ((lookupField fields "coordinates").bind lineOf).map Geometry.line
    else if t = "Polygon" then
      ((lookupField fields "coordinates").bind ringsOf).map Geometry.polygon
    else if t = "MultiPoint" then
      ((lookupField fields "coordinates").bind coordsOf).map Geometry.multipoint
    else if t = "MultiLine" then
      ((lookupField fields "coordinates").bind ringsOf).map Geometry.multiline
    else if t = "MultiPolygon" then
      ((lookupField fields "coordinates").bind polysOf).map Geometry.multipolygon
    else if t = "Collection" then
      match h : lookupField fields "geometries" with
      | some (Value.array vs) => (geomsOf vs).map Geometry.collection
      | _ => Option.none
    else Option.none
  | _ => Option.none
termination_by sizeOf fields
decreasing_by
  have h1 := sizeOf_lookupField h
  simp at h1 ⊢
  omega

/-- Modelled from the spec: the nested geometries of a serialized
`Collection`, each itself a serialized geometry object (§6). -/
def geomsOf : List Value → Option (List Geometry)
  | [] => some []
  | Value.object fs :: rest =>
    match objToGeometry fs, geomsOf rest with
    | some g, some gs => some (g :: gs)
    | _, _ => Option.none
  | _ :: _ => Option.none
termination_by vs => sizeOf vs
decreasing_by
  all_goals simp
  omega

end

/-- Modelled from the spec: the explicit cast operator `<geometry>value`
(§4.1, not under `src/`) — a no-op on `Geometry` values, a structural
conversion on matching `Object` values, and a type-cast error naming the
expected vs. actual shape otherwise.  It builds a fresh value and never
mutates its operand. -/
def castGeometry : Value → Except String Value
  | Value.geometry g => Except.ok (Value.geometry g)
  | Value.object fields =>
    match objToGeometry fields with
    | some g => Except.ok (Value.geometry g)
    | Option.none => Except.error "Expected a geometry but found a non-geometry object"
  | _ => Except.error "Expected a geometry but found another value"

/-- C9 (confirmed): an `Object` value whose fields structurally match a
geometry still reports `is_geometry() == false` and `is_object() == true`
(tag identity is authoritative, never inferred from shape at rest); the
explicit cast succeeds on it and its result reports `is_geometry() == true`
and `is_object() == false`; and the original stored object is unaffected by
the cast — it remains tagged `Object` (the cast returns a fresh value and
the embedding's cast takes its operand immutably). -/
theorem geometry_tag_is_nominal (fields : List (String × Value)) (g : Geometry)
    (h : objToGeometry fields = some g) :
    (Value.object fields).is_geometry = false
    ∧ (Value.object fields).is_object = true
    ∧ castGeometry (Value.object fields) = Except.ok (Value.geometry g)
    ∧ (Value.geometry g).is_geometry = true
    ∧ (Value.geometry g).is_object = false
    ∧ (Value.object fields).is_object = true :=
  ⟨rfl, rfl, by simp [castGeometry, h], rfl, rfl, rfl⟩

/-- The geometry-shaped object of the `objects_coerce_into_geometries`
test: `{ type: "Polygon", coordinates: [[[78.8, 78.8]]] }`. -/
def polygonObjFields : List (String × Value) :=
  [("type", Value.str "Polygon"),
   ("coordinates", Value.array [Value.array [Value.array
     [Value.number (394/5), Value.number (394/5)]]])]

/-- C9 witness: the nominal-typing statement at the test's concrete
polygon-shaped object. -/
theorem geometry_tag_is_nominal_witness :
    objToGeometry polygonObjFields = some (Geometry.polygon [[(394/5, 394/5)]])
    ∧ (Value.object polygonObjFields).is_geometry = false
    ∧ castGeometry (Value.object polygonObjFields)
        = Except.ok (Value.geometry (Geometry.polygon [[(394/5, 394/5)]])) := by
  have h : objToGeometry polygonObjFields = some (Geometry.polygon [[(394/5, 394/5)]]) := by
    simp [objToGeometry, polygonObjFields, lookupField, ringsOf, coordsOf, coordOf, mapOpt]
  exact ⟨h, (geometry_tag_is_nominal polygonObjFields _ h).1,
    (geometry_tag_is_nominal polygonObjFields _ h).2.2.1⟩

/-! ## C8 — merge: deletion sentinel and idempotence

Auxiliary predicates singling out the inputs on which re-applying a patch
is the identity, and the lemma stack about field operations. -/

/-- Embeds `Value::is_none`: the deletion-sentinel test. -/
def Value.isNone : Value → Bool
  | .none => true
  | _ => false

/-- Whether an object's fields contain a binding for `k`. -/
def containsKey (fs : List (String × Value)) (k : String) : Bool :=
  (lookupField fs k).isSome

/-- Well-formedness of an object's fields at one level: keys are pairwise
distinct (objects map unique string keys). -/
def keysNodup : List (String × Value) → Bool
  | [] => true
  | (k, _) :: rest => !containsKey rest k && keysNodup rest

mutual

/-- A value safe to store verbatim as a patch field and re-merge with
itself: every object reachable from it through objects has pairwise
distinct keys and no deletion-sentinel field. -/
def goodVal : Value → Bool
  | Value.object fs => keysNodup fs && goodFields fs
  | _ => true

/-- See `goodVal`: no field of the object holds the deletion sentinel, and
every field value is itself good. -/
def goodFields : List (String × Value) → Bool
  | [] => true
  | (_, v) :: rest => !v.isNone && goodVal v && goodFields rest

end

/-- A patch whose top-level field values (deletion sentinels allowed there)
are all `goodVal`. -/
def goodPatch : List (String × Value) → Bool
  | [] => true
  | (_, v) :: rest => goodVal v && goodPatch rest

theorem lookupField_setField_self (t : List (String × Value)) (k : String) (v : Value) :
    lookupField (setField t k v) k = some v := by
  induction t with
  | nil => simp [setField, lookupField]
  | cons p rest ih =>
    obtain ⟨j, w⟩ := p
    by_cases hj : j = k
    · simp [setField, hj, lookupField]
    · simp [setField, hj, lookupField, ih]

theorem lookupField_setField_ne (t : List (String × Value)) (j k : String) (v : Value)
    (h : j ≠ k) : lookupField (setField t j v) k = lookupField t k := by
  induction t with
  | nil => simp [setField, lookupField, h]
  | cons p rest ih =>
    obtain ⟨j', w⟩ := p
    by_cases hj : j' = j
    · subst hj
      simp [setField, lookupField, h]
    · simp [setField, hj, lookupField, ih]

theorem lookupField_removeField_self (t : List (String × Value)) (k : String) :
    lookupField (removeField t k) k = Option.none := by
  induction t with
  | nil => rfl
  | cons p rest ih =>
    obtain ⟨j, w⟩ := p
    by_cases hj : j = k
    · simpa [removeField, hj] using ih
    · simpa [removeField, lookupField, hj] using ih

theorem lookupField_removeField_ne (t : List (String × Value)) (j k : String)
    (h : j ≠ k) : lookupField (removeField t j) k = lookupField t k := by
  induction t with
  | nil => rfl
  | cons p rest ih =>
    obtain ⟨j', w⟩ := p
    by_cases hj : j' = j
    · subst hj
      simp [removeField, lookupField, h, ih]
    · simp [removeField, lookupField, hj, ih]

theorem setField_lookup_eq {t : List (String × Value)} {k : String} {v : Value}
    (h : lookupField t k = some v) : setField t k v = t := by
  induction t with
  | nil => simp [lookupField] at h
  | cons p rest ih =>
    obtain ⟨j, w⟩ := p
    by_cases hj : j = k
    · subst hj
      simp [lookupField] at h
      simp [setField, h]
    · simp [lookupField, hj] at h
      simp [setField, hj, ih h]

theorem removeField_lookup_none {t : List (String × Value)} {k : String}
    (h : lookupField t k = Option.none) : removeField t k = t := by
  induction t with
  | nil => rfl
  | cons p rest ih =>
    obtain ⟨j, w⟩ := p
    by_cases hj : j = k
    · subst hj
      simp [lookupField] at h
    · simp [lookupField, hj] at h
      simp [removeField, hj, ih h]

theorem lookupField_mergeOne_ne (t : List (String × Value)) (j k : String) (w : Value)
    (h : j ≠ k) : lookupField (mergeOne t j w) k = lookupField t k := by
  cases w with
  | none => simpa [mergeOne] using lookupField_removeField_ne t j k h
  | object pf =>
    cases hlt : lookupField t j with
    | none => simpa [mergeOne, hlt] using lookupField_setField_ne t j k _ h
    | some tv =>
      cases tv <;> simpa [mergeOne, hlt] using lookupField_setField_ne t j k _ h
  | _ => simpa [mergeOne] using lookupField_setField_ne t j k _ h

theorem lookupField_mergeObj_frame (q : List (String × Value)) :
    ∀ (t : List (String × Value)) (k : String), containsKey q k = false →
      lookupField (mergeObj t q) k = lookupField t k := by
  induction q with
  | nil => intro t k _; rfl
  | cons p rest ih =>
    intro t k hq
    obtain ⟨j, w⟩ := p
    simp [containsKey, lookupField] at hq
    by_cases hj : j = k
    · simp [hj] at hq
    · simp [hj] at hq
      have hrest : containsKey rest k = false := by
        simp [containsKey, hq]
      calc lookupField (mergeObj (mergeOne t j w) rest) k
          = lookupField (mergeOne t j w) k := ih (mergeOne t j w) k hrest
        _ = lookupField t k := lookupField_mergeOne_ne t j k w hj

theorem mem_containsKey {fs : List (String × Value)} {j : String} {w : Value}
    (h : (j, w) ∈ fs) : containsKey fs j = true := by
  induction fs with
  | nil => simp at h
  | cons p rest ih =>
    obtain ⟨j', w'⟩ := p
    rcases List.mem_cons.mp h with heq | hmem
    · obtain ⟨rfl, rfl⟩ := Prod.mk.injEq .. ▸ heq
      simp [containsKey, lookupField]
    · by_cases hj : j' = j
      · simp [containsKey, lookupField, hj]
      · simpa [containsKey, lookupField, hj] using ih hmem

theorem nodup_lookup_of_mem {fs : List (String × Value)} {j : String} {w : Value}
    (hnd : keysNodup fs = true) (h : (j, w) ∈ fs) : lookupField fs j = some w := by
  induction fs with
  | nil => simp at h
  | cons p rest ih =>
    obtain ⟨j', w'⟩ := p
    simp [keysNodup] at hnd
    rcases List.mem_cons.mp h with heq | hmem
    · obtain ⟨rfl, rfl⟩ := Prod.mk.injEq .. ▸ heq
      simp [lookupField]
    · have hne : j' ≠ j := by
        intro hj
        subst hj
        exact absurd (mem_containsKey hmem) (by simp [hnd.1])
      simp [lookupField, hne, ih hnd.2 hmem]

theorem goodFields_goodPatch {fs : List (String × Value)}
    (h : goodFields fs = true) : goodPatch fs = true := by
  induction fs with
  | nil => rfl
  | cons p rest ih =>
    obtain ⟨j, v⟩ := p
    simp [goodFields] at h
    simp [goodPatch, h.1.2, ih h.2]

/-- Re-applying a patch whose bindings are already all present verbatim in
the target is the identity (the self-absorption kernel of idempotence). -/
theorem mergeObj_self_fixed :
    ∀ (n : Nat) (q pf : List (String × Value)), sizeOf q ≤ n →
      goodFields q = true →
      (∀ j w, (j, w) ∈ q → lookupField pf j = some w) →
      mergeObj pf q = pf := by
  intro n
  induction n with
  | zero =>
    intro q pf hs _ _
    cases q with
    | nil => rfl
    | cons a l =>
      exfalso
      simp at hs
  | succ n ih =>
    intro q pf hs hg hmem
    cases q with
    | nil => rfl
    | cons hd rest =>
      obtain ⟨j, w⟩ := hd
      have hw : lookupField pf j = some w := hmem j w (List.mem_cons_self _ _)
      simp [goodFields] at hg
      obtain ⟨⟨hnn, hgv⟩, hgrest⟩ := hg
      have hone : mergeOne pf j w = pf := by
        cases w with
        | none => simp [Value.isNone] at hnn
        | object wf =>
          have hcond : keysNodup wf = true ∧ goodFields wf = true := by
            simpa [goodVal] using hgv
          have hswf : sizeOf wf ≤ n := by
            simp at hs
            omega
          have hself : mergeObj wf wf = wf :=
            ih wf wf hswf hcond.2 (fun j' w' hm => nodup_lookup_of_mem hcond.1 hm)
          simp [mergeOne, hw, hself]
          exact setField_lookup_eq hw
        | null => simp [mergeOne]; exact setField_lookup_eq hw
        | bool b => simp [mergeOne]; exact setField_lookup_eq hw
        | number q => simp [mergeOne]; exact setField_lookup_eq hw
        | str s => simp [mergeOne]; exact setField_lookup_eq hw
        | duration d => simp [mergeOne]; exact setField_lookup_eq hw
        | datetime d => simp [mergeOne]; exact setField_lookup_eq hw
        | recordId tb id => simp [mergeOne]; exact setField_lookup_eq hw
        | array xs => simp [mergeOne]; exact setField_lookup_eq hw
        | geometry g => simp [mergeOne]; exact setField_lookup_eq hw
      have hstep : mergeObj pf ((j, w) :: rest) = mergeObj (mergeOne pf j w) rest := rfl
      rw [hstep, hone]
      refine ih rest pf ?_ hgrest (fun j' w' hm => hmem j' w' (List.mem_cons_of_mem _ hm))
      simp at hs
      omega

/-- A `mergeOne` step whose key already holds `None`-free content equal to
what the step would write is the identity: the sentinel case. -/
theorem mergeOne_none_fixed {u : List (String × Value)} {k : String}
    (hlu : lookupField u k = Option.none) : mergeOne u k Value.none = u := by
  simp only [mergeOne]
  exact removeField_lookup_none hlu

/-- A `mergeOne` step with an object patch value is the identity when the
target already stores an object the patch absorbs into itself. -/
theorem mergeOne_object_fixed {u : List (String × Value)} {k : String}
    {pf X : List (String × Value)}
    (hlu : lookupField u k = some (Value.object X))
    (habs : mergeObj X pf = X) : mergeOne u k (Value.object pf) = u := by
  have h1 : mergeOne u k (Value.object pf) = setField u k (Value.object (mergeObj X pf)) := by
    simp [mergeOne, hlu]
  rw [h1, habs]
  exact setField_lookup_eq hlu

/-- A `mergeOne` step with a non-sentinel, non-object patch value is the
identity when the target already stores that value. -/
theorem mergeOne_scalar_fixed {u : List (String × Value)} {k : String} {pv : Value}
    (h1 : pv.isNone = false) (h2 : ∀ pf, pv ≠ Value.object pf)
    (hlu : lookupField u k = some pv) : mergeOne u k pv = u := by
  cases pv with
  | none => simp [Value.isNone] at h1
  | object pf => exact absurd rfl (h2 pf)
  | null => simp only [mergeOne]; exact setField_lookup_eq hlu
  | bool b => simp only [mergeOne]; exact setField_lookup_eq hlu
  | number q => simp only [mergeOne]; exact setField_lookup_eq hlu
  | str s => simp only [mergeOne]; exact setField_lookup_eq hlu
  | duration d => simp only [mergeOne]; exact setField_lookup_eq hlu
  | datetime d => simp only [mergeOne]; exact setField_lookup_eq hlu
  | recordId tb id => simp only [mergeOne]; exact setField_lookup_eq hlu
  | array xs => simp only [mergeOne]; exact setField_lookup_eq hlu
  | geometry g => simp only [mergeOne]; exact setField_lookup_eq hlu

/-- Applying a patch with pairwise-distinct keys and `goodVal` field values
twice is the same as applying it once. -/
theorem mergeObj_absorb :
    ∀ (n : Nat) (p t : List (String × Value)), sizeOf p ≤ n →
      keysNodup p = true → goodPatch p = true →
      mergeObj (mergeObj t p) p = mergeObj t p := by
  intro n
  induction n with
  | zero =>
    intro p t hs _ _
    cases p with
    | nil => rfl
    | cons a l =>
      exfalso
      simp at hs
  | succ n ih =>
    intro p t hs hnd hgp
    cases p with
    | nil => rfl
    | cons hd rest =>
      obtain ⟨k, pv⟩ := hd
      simp [keysNodup] at hnd
      obtain ⟨hck, hndrest⟩ := hnd
      simp [goodPatch] at hgp
      obtain ⟨hgv, hgprest⟩ := hgp
      have hckf : containsKey rest k = false := hck
      have hsizerest : sizeOf rest ≤ n := by
        simp at hs
        omega
      have hstep : mergeObj t ((k, pv) :: rest) = mergeObj (mergeOne t k pv) rest := rfl
      have hstep2 : mergeObj (mergeObj (mergeOne t k pv) rest) ((k, pv) :: rest)
          = mergeObj (mergeOne (mergeObj (mergeOne t k pv) rest) k pv) rest := rfl
      rw [hstep, hstep2]
      have hframe : lookupField (mergeObj (mergeOne t k pv) rest) k
          = lookupField (mergeOne t k pv) k :=
        lookupField_mergeObj_frame rest (mergeOne t k pv) k hckf
      have hone : mergeOne (mergeObj (mergeOne t k pv) rest) k pv
          = mergeObj (mergeOne t k pv) rest := by
        cases pv with
        | none =>
          refine mergeOne_none_fixed (hframe.trans ?_)
          simpa [mergeOne] using lookupField_removeField_self t k
        | object pf =>
          have hcond : keysNodup pf = true ∧ goodFields pf = true := by
            simpa [goodVal] using hgv
          have hspf : sizeOf pf ≤ n := by
            simp at hs
            omega
          have hself : mergeObj pf pf = pf :=
            mergeObj_self_fixed (sizeOf pf) pf pf le_rfl hcond.2
              (fun j2 w2 hm => nodup_lookup_of_mem hcond.1 hm)
          cases hlt : lookupField t k with
          | some tv =>
            cases tv with
            | object tf =>
              have habs : mergeObj (mergeObj tf pf) pf = mergeObj tf pf :=
                ih pf tf hspf hcond.1 (goodFields_goodPatch hcond.2)
              refine mergeOne_object_fixed (hframe.trans ?_) habs
              simp [mergeOne, hlt]
              exact lookupField_setField_self t k _
            | none =>
              refine mergeOne_object_fixed (hframe.trans ?_) hself
              simp [mergeOne, hlt]
              exact lookupField_setField_self t k _
            | null =>
              refine mergeOne_object_fixed (hframe.trans ?_) hself
              simp [mergeOne, hlt]
              exact lookupField_setField_self t k _
            | bool b =>
              refine mergeOne_object_fixed (hframe.trans ?_) hself
              simp [mergeOne, hlt]
              exact lookupField_setField_self t k _
            | number q =>
              refine mergeOne_object_fixed (hframe.trans ?_) hself
              simp [mergeOne, hlt]
              exact lookupField_setField_self t k _
            | str s2 =>
              refine mergeOne_object_fixed (hframe.trans ?_) hself
              simp [mergeOne, hlt]
              exact lookupField_setField_self t k _
            | duration d =>
              refine mergeOne_object_fixed (hframe.trans ?_) hself
              simp [mergeOne, hlt]
              exact lookupField_setField_self t k _
            | datetime d =>
              refine mergeOne_object_fixed (hframe.trans ?_) hself
              simp [mergeOne, hlt]
              exact lookupField_setField_self t k _
            | recordId tb id =>
              refine mergeOne_object_fixed (hframe.trans ?_) hself
              simp [mergeOne, hlt]
              exact lookupField_setField_self t k _
            | array xs =>
              refine mergeOne_object_fixed (hframe.trans ?_) hself
              simp [mergeOne, hlt]
              exact lookupField_setField_self t k _
            | geometry g =>
              refine mergeOne_object_fixed (hframe.trans ?_) hself
              simp [mergeOne, hlt]
              exact lookupField_setField_self t k _
          | none =>
            refine mergeOne_object_fixed (hframe.trans ?_) hself
            simp [mergeOne, hlt]
            exact lookupField_setField_self t k _
        | null =>
          refine mergeOne_scalar_fixed rfl (by intro pf h; exact Value.noConfusion h)
            (hframe.trans ?_)
          simpa [mergeOne] using lookupField_setField_self t k Value.null
        | bool b =>
          refine mergeOne_scalar_fixed rfl (by intro pf h; exact Value.noConfusion h)
            (hframe.trans ?_)
          simpa [mergeOne] using lookupField_setField_self t k (Value.bool b)
        | number q =>
          refine mergeOne_scalar_fixed rfl (by intro pf h; exact Value.noConfusion h)
            (hframe.trans ?_)
          simpa [mergeOne] using lookupField_setField_self t k (Value.number q)
        | str s2 =>
          refine mergeOne_scalar_fixed rfl (by intro pf h; exact Value.noConfusion h)
            (hframe.trans ?_)
          simpa [mergeOne] using lookupField_setField_self t k (Value.str s2)
        | duration d =>
          refine mergeOne_scalar_fixed rfl (by intro pf h; exact Value.noConfusion h)
            (hframe.trans ?_)
          simpa [mergeOne] using lookupField_setField_self t k (Value.duration d)
        | datetime d =>
          refine mergeOne_scalar_fixed rfl (by intro pf h; exact Value.noConfusion h)
            (hframe.trans ?_)
          simpa [mergeOne] using lookupField_setField_self t k (Value.datetime d)
        | recordId tb id =>
          refine mergeOne_scalar_fixed rfl (by intro pf h; exact Value.noConfusion h)
            (hframe.trans ?_)
          simpa [mergeOne] using lookupField_setField_self t k (Value.recordId tb id)
        | array xs =>
          refine mergeOne_scalar_fixed rfl (by intro pf h; exact Value.noConfusion h)
            (hframe.trans ?_)
          simpa [mergeOne] using lookupField_setField_self t k (Value.array xs)
        | geometry g =>
          refine mergeOne_scalar_fixed rfl (by intro pf h; exact Value.noConfusion h)
            (hframe.trans ?_)
          simpa [mergeOne] using lookupField_setField_self t k (Value.geometry g)
      rw [hone]
      exact ih rest (mergeOne t k pv) hsizerest hndrest hgprest

/-- A deletion-sentinel binding in a patch with pairwise-distinct keys
removes the key from the merge result (with no error if it was absent:
`mergeObj` is total). -/
theorem mergeObj_sentinel_removes :
    ∀ (p t : List (String × Value)) (k : String), keysNodup p = true →
      (k, Value.none) ∈ p → lookupField (mergeObj t p) k = Option.none := by
  intro p
  induction p with
  | nil =>
    intro t k _ hm
    simp at hm
  | cons hd rest ih =>
    intro t k hnd hm
    obtain ⟨j, w⟩ := hd
    simp [keysNodup] at hnd
    obtain ⟨hck, hndrest⟩ := hnd
    rcases List.mem_cons.mp hm with heq | hmem
    · obtain ⟨rfl, rfl⟩ := Prod.mk.injEq .. ▸ heq
      have hstep : mergeObj t ((k, Value.none) :: rest)
          = mergeObj (mergeOne t k Value.none) rest := rfl
      rw [hstep, lookupField_mergeObj_frame rest _ k hck]
      simpa [mergeOne] using lookupField_removeField_self t k
    · have hj : j ≠ k := by
        intro hjk
        subst hjk
        exact absurd (mem_containsKey hmem) (by simp [hck])
      have hstep : mergeObj t ((j, w) :: rest) = mergeObj (mergeOne t j w) rest := rfl
      rw [hstep]
      exact ih (mergeOne t j w) k hndrest hmem

/-- The example target of the spec's merge test: `{a: 0, b: 2, c: 3}`. -/
def exTarget : List (String × Value) :=
  [("a", Value.number 0), ("b", Value.number 2), ("c", Value.number 3)]

/-- The example patch of the spec's merge test: `{a: 1, b: NONE}`. -/
def exPatch : List (String × Value) :=
  [("a", Value.number 1), ("b", Value.none)]

/-- C8 (amended): merge is total for well-formed inputs; a patch field
holding the deletion sentinel removes that key from the target (no error if
absent); the example `{a: 0, b: 2, c: 3}` merged with `{a: 1, b: NONE}`
yields `{a: 1, c: 3}`; and re-applying the identical patch to merge's own
output is a no-op — provided the patch's field values carry no deletion
sentinel nested inside an object value (`goodPatch`), the restriction the
counterexample forces: a patch object containing a nested sentinel can be
stored verbatim over a non-object target field, after which the second
application deletes the nested key. -/
theorem merge_sentinel_and_restricted_idempotence
    (t p : List (String × Value)) (k : String) :
    (keysNodup p = true → (k, Value.none) ∈ p →
      lookupField (mergeObj t p) k = Option.none)
    ∧ mergeObj exTarget exPatch = [("a", Value.number 1), ("c", Value.number 3)]
    ∧ (keysNodup p = true → goodPatch p = true →
        mergeObj (mergeObj t p) p = mergeObj t p) :=
  ⟨fun h1 h2 => mergeObj_sentinel_removes p t k h1 h2, rfl,
   fun h1 h2 => mergeObj_absorb (sizeOf p) p t le_rfl h1 h2⟩

/-- The target of the C8 counterexample: `{a: 1}` (the field `a` holds a
number, not an object). -/
def ceTarget : List (String × Value) := [("a", Value.number 1)]

/-- The patch of the C8 counterexample: `{a: {b: NONE}}` — an object patch
value with a nested deletion sentinel. -/
def cePatch : List (String × Value) := [("a", Value.object [("b", Value.none)])]

/-- C8 (counterexample to the claim as stated): both inputs are well-formed
objects (pairwise-distinct keys at every level), yet merge is not
idempotent on them: the first application stores the patch object
`{b: NONE}` verbatim over the numeric field, and the second application
then treats the stored sentinel as a deletion instruction, so
`merge(merge(target, patch), patch) ≠ merge(target, patch)`. -/
theorem merge_not_idempotent_on_nested_sentinel :
    keysNodup ceTarget = true
    ∧ keysNodup cePatch = true
    ∧ keysNodup [("b", Value.none)] = true
    ∧ mergeObj ceTarget cePatch = [("a", Value.object [("b", Value.none)])]
    ∧ mergeObj (mergeObj ceTarget cePatch) cePatch = [("a", Value.object [])]
    ∧ mergeObj (mergeObj ceTarget cePatch) cePatch ≠ mergeObj ceTarget cePatch := by
  refine ⟨rfl, rfl, rfl, rfl, rfl, ?_⟩
  intro h
  have h2 : ([("a", Value.object [])] : List (String × Value))
      = [("a", Value.object [("b", Value.none)])] := h
  simp at h2

/-- C8 witness: the amended statement at the spec's example inputs — the
sentinel field `b` is gone from the result, and re-applying the example
patch to the result is a no-op. -/
theorem merge_sentinel_and_restricted_idempotence_witness :
    lookupField (mergeObj exTarget exPatch) "b" = Option.none
    ∧ mergeObj (mergeObj exTarget exPatch) exPatch = mergeObj exTarget exPatch :=
  ⟨(merge_sentinel_and_restricted_idempotence exTarget exPatch "b").1 rfl
      (by simp [exPatch]),
   (merge_sentinel_and_restricted_idempotence exTarget exPatch "b").2.2 rfl rfl⟩

/-- C10 (confirmed): for every response map, string key and target shape
(untyped `Value`, `Option<T>` or `Vec<T>`), extraction with the bare string
selector returns the same result and leaves the map in the same state as
extraction with the `(0, key)` selector — the three `&str` implementations
delegate to the pair selector at index 0. -/
theorem str_selector_is_index_zero_selector {α : Type}
    (dec : Value → Except ApiError (Option α))
    (decList : List Value → Except ApiError (List α))
    (key : String) (m : ResponseMap) :
    takeValueStr key m = takeValueKey 0 key m
    ∧ takeOptionStr dec key m = takeOptionKey dec 0 key m
    ∧ takeVecStr decList key m = takeVecKey decList 0 key m :=
  ⟨rfl, rfl, rfl⟩
